import Mathlib

/-!
Verification development for the synthizer interpreter core.

Modelling conventions, used consistently below:
* `f32` is modelled by `ℚ`.  Every concrete value appearing in the claims
  (small integers, 0.5, 1e5, sentinels 1 and -1) is represented exactly by
  both `f32` and `ℚ`; NaN and infinities are outside the model.
* Rust `Vec` used as a stack is a Lean `List` whose head is the stack top
  (Rust pushes/pops at the end of the vector).
* `HashMap`/`VecMap` are association lists; `VecMap` iteration count is the
  list length.
* A Rust `panic!`/failed `unwrap`/failed `assert!` is modelled by `none`
  (or a dedicated `panicked` result for the lexer).
* Rust strings are lists of bytes (`List Nat`); the lexer's regexes are all
  ASCII so byte-level matching coincides with the regex crate's char-level
  matching on the patterns involved.
-/

namespace Synthizer

/-! ## interpreter/mod.rs : truthiness and the boolean sentinels -/

def TRUE : ℚ := 1

def FALSE : ℚ := -1

def is_truthy (v : ℚ) : Bool := v > 0

def from_bool (v : Bool) : ℚ := if v then TRUE else FALSE

/-! ## interpreter/expr.rs : the expression engine -/

namespace Expr

inductive Operator where
  | Add | Sub | Mul | Div | Exp | Mod | Neg
  | Less | Greater | Equ | NotEqu | ApproxEqu
  | Not | And | Or | Xor | GreaterEqual | LessEqual
deriving DecidableEq

inductive Associativity where
  | Left
  | Right
deriving DecidableEq

def Operator.precedence : Operator → Int
  | .And | .Or | .Xor => 0
  | .Equ | .NotEqu | .ApproxEqu => 1
  | .Less | .Greater | .GreaterEqual | .LessEqual => 2
  | .Add | .Sub => 3
  | .Mul | .Div | .Mod => 4
  | .Neg | .Not | .Exp => 6

def Operator.num_args : Operator → Nat
  | .Neg | .Not => 1
  | _ => 2

def Operator.associativity : Operator → Associativity
  | .Exp => .Right
  | _ => .Left

-- Debug formatting of an operator (Rust `{}` via derived Show).
def Operator.name : Operator → String
  | .Add => "Add" | .Sub => "Sub" | .Mul => "Mul" | .Div => "Div"
  | .Exp => "Exp" | .Mod => "Mod" | .Neg => "Neg" | .Less => "Less"
  | .Greater => "Greater" | .Equ => "Equ" | .NotEqu => "NotEqu"
  | .ApproxEqu => "ApproxEqu" | .Not => "Not" | .And => "And"
  | .Or => "Or" | .Xor => "Xor" | .GreaterEqual => "GreaterEqual"
  | .LessEqual => "LessEqual"

-- A runtime variable scope: `get_var` on the id space.  Function calls are
-- modelled by the result of `SyntFunctionCall::call` in a given scope.
def Scope : Type := Nat → Option ℚ

def Scope.get_var (s : Scope) (id : Nat) : Option ℚ := s id

inductive ExprToken where
  | Op (op : Operator)
  | Value (v : ℚ)
  | Var (id : Nat)
  | LParen
  | RParen
  | Fn (call : Scope → Except String ℚ)

-- `f32::powf`, modelled on integer exponents (where it is exact).
def powf (a b : ℚ) : ℚ :=
  if b.den = 1 then
    if 0 ≤ b.num then a ^ b.num.toNat else (a ^ (-b.num).toNat)⁻¹
  else 0

-- `f32::fract` of a nonnegative rational (the code only applies it to an
-- absolute value): fractional part.
def fract (x : ℚ) : ℚ := x - ⌊x⌋

-- One operator application in eval_rpn; `args` lists the popped values,
-- most recently pushed first (`args[0]` is the old stack top).  The
-- out-of-range default 0 is unreachable: the caller checks the length.
def applyOp (op : Operator) (args : List ℚ) : ℚ :=
  let arg (i : Nat) : ℚ := args.getD i 0
  match op with
  | .Add => arg 1 + arg 0
  | .Sub => arg 1 - arg 0
  | .Mul => arg 1 * arg 0
  | .Div => arg 1 / arg 0
  | .Exp => powf (arg 1) (arg 0)
  | .Mod =>
      let c := fract |arg 1 / arg 0| * |arg 0|
      if arg 1 > 0 then c else -c
  | .Neg => -(arg 0)
  | .Not => from_bool (is_truthy (-(arg 0)))
  | .Less => from_bool (arg 1 < arg 0)
  | .Greater => from_bool (arg 1 > arg 0)
  | .LessEqual => from_bool (arg 1 ≤ arg 0)
  | .GreaterEqual => from_bool (arg 1 ≥ arg 0)
  | .Equ => from_bool (arg 1 = arg 0)
  | .NotEqu => from_bool (arg 1 ≠ arg 0)
  | .ApproxEqu => from_bool (|arg 1 - arg 0| < 1/10000)
  | .And => from_bool (is_truthy (arg 1) && is_truthy (arg 0))
  | .Or => from_bool (is_truthy (arg 1) || is_truthy (arg 0))
  | .Xor => from_bool (xor (is_truthy (arg 1)) (is_truthy (arg 0)))

-- The walk over an RPN sequence in `eval_rpn`, carrying the value stack.
def evalLoop (scope : Scope) : List ExprToken → List ℚ → Except String (List ℚ)
  | [], stack => .ok stack
  | t :: ts, stack =>
    match t with
    | .Value v => evalLoop scope ts (v :: stack)
    | .Fn call =>
        match call scope with
        | .ok v => evalLoop scope ts (v :: stack)
        | .error e => .error e
    | .Var id =>
        match scope.get_var id with
        | some v => evalLoop scope ts (v :: stack)
        | none => .error ("Attempted to access a nonexistent variable (id=" ++ toString id ++ ")")
    | .Op op =>
        if stack.length < op.num_args then
          .error ("invalid expression: not enough args for operator " ++ op.name)
        else
          evalLoop scope ts (applyOp op (stack.take op.num_args) :: stack.drop op.num_args)
    | .LParen => .error "unexpected token in expression"
    | .RParen => .error "unexpected token in expression"

def eval_rpn (rpn : List ExprToken) (scope : Scope) : Except String ℚ :=
  match evalLoop scope rpn [] with
  | .error e => .error e
  | .ok [v] => .ok v
  | .ok [] => .error "zero values in expression"
  | .ok _ => .error "too many values in expression"

-- The inner while loop of shunting_yard on an incoming operator: pop and
-- emit while the top of the stack is an operator satisfying the
-- precedence/associativity condition.  Returns (stack, out) afterwards.
def popOps (op1 : Operator) : List ExprToken → List ExprToken → List ExprToken × List ExprToken
  | [], out => ([], out)
  | top :: rest, out =>
    match top with
    | .Op op2 =>
        if (op1.associativity = .Left ∧ op1.precedence ≤ op2.precedence)
            ∨ op1.precedence < op2.precedence then
          popOps op1 rest (out ++ [.Op op2])
        else (.Op op2 :: rest, out)
    | _ => (top :: rest, out)

-- The while loop on a right paren: pop and emit until a left paren is
-- found and discarded.  An exhausted stack is the "skewed right" error;
-- the last arm models the source's panic (unreachable: the stack only
-- ever holds operators and left parens).
def popUntilLParen : List ExprToken → List ExprToken → Except String (List ExprToken × List ExprToken)
  | [], _ => .error "mismatched parens: skewed right"
  | top :: rest, out =>
    match top with
    | .Op op => popUntilLParen rest (out ++ [.Op op])
    | .LParen => .ok (rest, out)
    | _ => .error "internal error: unexpected value on stack"

-- Popping the remaining stack contents to the output after all tokens are
-- consumed; a leftover paren is the "skewed left" error.
def drainStack : List ExprToken → List ExprToken → Except String (List ExprToken)
  | [], out => .ok out
  | top :: rest, out =>
    match top with
    | .Op op => drainStack rest (out ++ [.Op op])
    | .LParen => .error "mismatched parens: skewed left"
    | .RParen => .error "mismatched parens: skewed left"
    | _ => .error "internal error: non operator on stack"

def syLoop : List ExprToken → List ExprToken → List ExprToken → Except String (List ExprToken)
  | [], out, stack => drainStack stack out
  | t :: ts, out, stack =>
    match t with
    | .Value v => syLoop ts (out ++ [.Value v]) stack
    | .Var id => syLoop ts (out ++ [.Var id]) stack
    | .Fn call => syLoop ts (out ++ [.Fn call]) stack
    | .Op op1 =>
        let p := popOps op1 stack out
        syLoop ts p.2 (.Op op1 :: p.1)
    | .LParen => syLoop ts out (.LParen :: stack)
    | .RParen =>
        match popUntilLParen stack out with
        | .ok (stack2, out2) => syLoop ts out2 stack2
        | .error e => .error e

def shunting_yard (tokens : List ExprToken) : Except String (List ExprToken) :=
  syLoop tokens [] []

-- Compile an infix token sequence and evaluate the resulting postfix form.
def compileEval (tokens : List ExprToken) (scope : Scope) : Except String ℚ :=
  match shunting_yard tokens with
  | .ok rpn => eval_rpn rpn scope
  | .error e => .error e

-- The compiled expression: its reverse-polish token list plus the source
-- position the expression started at.
structure Expression where
  rpn : List ExprToken
  pos : Nat × Nat

def foldTok (scope : Scope) (tok : ExprToken) : ExprToken :=
  match tok with
  | .Var id =>
      match scope.get_var id with
      | some v => .Value v
      | none => .Var id
  | t => t

def Expression.fold_scope (e : Expression) (scope : Scope) : Expression :=
  { e with rpn := e.rpn.map (foldTok scope) }

def emptyScope : Scope := fun _ => none

/-! Verification helpers: a symbolic simulation of the operand-stack size
during `eval_rpn`, for postfix sequences built from constants and
operators only. -/

def isValOp : ExprToken → Bool
  | .Value _ => true
  | .Op _ => true
  | _ => false

inductive SimResult where
  | ok (n : Nat)
  | underflow (op : Operator)
deriving DecidableEq

-- Stack-size simulation of the eval_rpn walk; the catch-all arm is
-- unreachable for lists satisfying `isValOp`.
def sim : List ExprToken → Nat → SimResult
  | [], n => .ok n
  | .Value _ :: ts, n => sim ts (n + 1)
  | .Op op :: ts, n =>
      if n < op.num_args then .underflow op else sim ts (n - op.num_args + 1)
  | _ :: _, _ => .ok 0

end Expr

/-! ## interpreter/lexer.rs : the lexer

Source text is a list of UTF-8 bytes.  Each regex is modelled by a matcher
computing the length of the (leftmost-first) match at offset 0 of the
remaining input, exactly as the lexer uses `find` (it only accepts matches
starting at offset 0).  All the patterns are ASCII, so byte-level matching
agrees with the regex crate's char-level matching. -/

namespace Lexer

def isDigit (b : Nat) : Bool := 48 ≤ b && b ≤ 57

def isAlpha (b : Nat) : Bool := (65 ≤ b && b ≤ 90) || (97 ≤ b && b ≤ 122)

-- IDENT_REGEX character classes: start `[a-zA-Z_~']`, continue adds `0-9`.
def identStart (b : Nat) : Bool := isAlpha b || b == 95 || b == 126 || b == 39

def identCont (b : Nat) : Bool := identStart b || isDigit b

-- Punctuation class of SYMBOL_REGEX: . , = : ; ? ( ) { } ] [ \
def symClass (b : Nat) : Bool :=
  b == 46 || b == 44 || b == 61 || b == 58 || b == 59 || b == 63 ||
  b == 40 || b == 41 || b == 123 || b == 125 || b == 93 || b == 91 || b == 92

-- Single-character class of OPERATOR_REGEX: + * / ^ > < ! % -
def opClass (b : Nat) : Bool :=
  b == 43 || b == 42 || b == 47 || b == 94 || b == 62 || b == 60 ||
  b == 33 || b == 37 || b == 45

-- COMMENT_REGEX `//.*` : `.` matches anything except a newline byte.
def commentLen : List Nat → Option Nat
  | 47 :: 47 :: rest => some (2 + (rest.takeWhile (fun b => b ≠ 10)).length)
  | _ => none

-- WHITESPACE_REGEX `[ \t]+`
def whitespaceLen (w : List Nat) : Option Nat :=
  let n := (w.takeWhile (fun b => b == 32 || b == 9)).length
  if n = 0 then none else some n

-- NEWLINE_REGEX `[\n\r]`
def newlineLen : List Nat → Option Nat
  | b :: _ => if b = 10 ∨ b = 13 then some 1 else none
  | [] => none

-- SYMBOL_REGEX `if|else|[punctuation]`, alternatives in this order.
def symbolLen : List Nat → Option Nat
  | 105 :: 102 :: _ => some 2
  | 101 :: 108 :: 115 :: 101 :: _ => some 4
  | b :: _ => if symClass b then some 1 else none
  | [] => none

-- IDENT_REGEX `[a-zA-Z_~']+[a-zA-Z_~0-9']*`: since every start character is
-- also a continue character, the greedy match from a start character is the
-- maximal run of continue characters.
def identLen (w : List Nat) : Option Nat :=
  match w with
  | b :: _ => if identStart b then some (w.takeWhile identCont).length else none
  | [] => none

-- OPERATOR_REGEX with its alternatives in source order: the two-character
-- forms ^^ >= <= ~=, then the single-character class, then && || == != .
def operatorLen : List Nat → Option Nat
  | 94 :: 94 :: _ => some 2
  | 62 :: 61 :: _ => some 2
  | 60 :: 61 :: _ => some 2
  | 126 :: 61 :: _ => some 2
  | b :: rest =>
    if opClass b then some 1
    else
      match b, rest with
      | 38, 38 :: _ => some 2
      | 124, 124 :: _ => some 2
      | 61, 61 :: _ => some 2
      | 33, 61 :: _ => some 2
      | _, _ => none
  | [] => none

-- CONST_REGEX mantissa `[0-9]+\.?[0-9]*|[0-9]*\.?[0-9]+`, leftmost-first.
def mantissaLen : List Nat → Option Nat
  | [] => none
  | b :: rest =>
    if isDigit b then
      let d1 := ((b :: rest).takeWhile isDigit).length
      match (b :: rest).drop d1 with
      | 46 :: r2 => some (d1 + 1 + (r2.takeWhile isDigit).length)
      | _ => some d1
    else if b = 46 then
      match rest with
      | c :: _ => if isDigit c then some (1 + (rest.takeWhile isDigit).length) else none
      | [] => none
    else none

-- CONST_REGEX optional exponent `([eE]-?[0-9]+)?`: zero length when the
-- group cannot complete (the digits are required inside the group).
def expTail (rest : List Nat) : Nat :=
  match rest with
  | 45 :: r2 =>
      let d := (r2.takeWhile isDigit).length
      if d = 0 then 0 else 2 + d
  | _ =>
      let d := (rest.takeWhile isDigit).length
      if d = 0 then 0 else 1 + d

def expLen : List Nat → Nat
  | 101 :: rest => expTail rest
  | 69 :: rest => expTail rest
  | _ => 0

def constLen (w : List Nat) : Option Nat :=
  (mantissaLen w).map (fun m => m + expLen (w.drop m))

-- `str::parse::<f32>` on a lexeme matched by CONST_REGEX, modelled exactly
-- over ℚ (f32 rounding is exact on every value the claims mention).
def digitsToNat : List Nat → Nat → Nat
  | [], acc => acc
  | d :: ds, acc => digitsToNat ds (acc * 10 + (d - 48))

def applyExp (mant : ℚ) (r : List Nat) : ℚ :=
  match r with
  | 101 :: 45 :: ds => mant / (10 : ℚ) ^ digitsToNat ds 0
  | 69 :: 45 :: ds => mant / (10 : ℚ) ^ digitsToNat ds 0
  | 101 :: ds => mant * (10 : ℚ) ^ digitsToNat ds 0
  | 69 :: ds => mant * (10 : ℚ) ^ digitsToNat ds 0
  | _ => mant

def parseConst (s : List Nat) : ℚ :=
  let ip := s.takeWhile isDigit
  let r1 := s.drop ip.length
  match r1 with
  | 46 :: r =>
      let fp := r.takeWhile isDigit
      let mant : ℚ := (digitsToNat ip 0 : ℚ) + (digitsToNat fp 0 : ℚ) / (10 : ℚ) ^ fp.length
      applyExp mant (r.drop fp.length)
  | _ => applyExp (digitsToNat ip 0 : ℚ) r1

inductive Bracket where
  | Round
  | Square
  | Curly
deriving DecidableEq

inductive Symbol where
  | Period | Comma | Equals | Colon | Semicolon | QuestionMark | Backslash
  | If | Else
  | LeftBracket (b : Bracket)
  | RightBracket (b : Bracket)
deriving DecidableEq

def Symbol.parse : List Nat → Option Symbol
  | [46] => some .Period
  | [44] => some .Comma
  | [61] => some .Equals
  | [58] => some .Colon
  | [59] => some .Semicolon
  | [63] => some .QuestionMark
  | [92] => some .Backslash
  | [105, 102] => some .If
  | [101, 108, 115, 101] => some .Else
  | [40] => some (.LeftBracket .Round)
  | [41] => some (.RightBracket .Round)
  | [123] => some (.LeftBracket .Curly)
  | [125] => some (.RightBracket .Curly)
  | [91] => some (.LeftBracket .Square)
  | [93] => some (.RightBracket .Square)
  | _ => none

inductive Operator where
  | Add | Sub | Mul | Div | Exp | Mod | Neg
  | Less | Greater | Equ | NotEqu | ApproxEqu
  | Not | And | Or | Xor | GreaterEqual | LessEqual
deriving DecidableEq

def Operator.parse : List Nat → Option Operator
  | [43] => some .Add
  | [45] => some .Sub
  | [42] => some .Mul
  | [47] => some .Div
  | [94] => some .Exp
  | [37] => some .Mod
  | [61, 61] => some .Equ
  | [33, 61] => some .NotEqu
  | [126, 61] => some .ApproxEqu
  | [60] => some .Less
  | [62] => some .Greater
  | [60, 61] => some .LessEqual
  | [62, 61] => some .GreaterEqual
  | [33] => some .Not
  | [38, 38] => some .And
  | [124, 124] => some .Or
  | [94, 94] => some .Xor
  | _ => none

-- Identifier interning is modelled by the identifier's own byte string
-- (the IdMap gives the same handle to the same string).
inductive Token where
  | Ident (id : List Nat)
  | Const (v : ℚ)
  | Operator (op : Lexer.Operator)
  | Symbol (s : Lexer.Symbol)
deriving DecidableEq

structure SourcePos where
  line : Nat
  column : Nat
  index : Nat
  line_index : Nat
deriving DecidableEq

def SourcePos.new : SourcePos := ⟨1, 1, 0, 0⟩

def SourcePos.add_line (p : SourcePos) : SourcePos :=
  { line := p.line + 1, column := 1, index := p.index + 1, line_index := p.index + 1 }

def SourcePos.add_chars (p : SourcePos) (num : Nat) : SourcePos :=
  { p with column := p.column + num, index := p.index + num }

inductive Level where
  | Error
  | Warning
deriving DecidableEq

structure Issue where
  pos : SourcePos
  level : Level
  msg : String
deriving DecidableEq

-- Result of lexing: `done` is normal completion; `panicked` models a Rust
-- panic (a byte slice at a non-character boundary, or a failed unwrap);
-- `outOfFuel` is an artifact of the fuelled recursion and is unreachable
-- when the fuel is at least the input length (each iteration consumes at
-- least one byte), see `lexLoop_no_fuel`.
inductive LexResult where
  | done (tokens : List (Token × SourcePos)) (issues : List Issue)
  | panicked
  | outOfFuel
deriving DecidableEq

-- Rust's `str` slicing panics unless the cut is at a UTF-8 char boundary:
-- the next byte must not be a continuation byte (0x80..0xBF).
def isCharBoundary : List Nat → Bool
  | [] => true
  | b :: _ => b < 128 || 192 ≤ b

def lexLoop : Nat → List Nat → SourcePos → List (Token × SourcePos) → List Issue → LexResult
  | _, [], _, tokens, issues => .done tokens issues
  | 0, _ :: _, _, _, _ => .outOfFuel
  | fuel + 1, b :: rest, pos, tokens, issues =>
    match commentLen (b :: rest) with
    | some n => lexLoop fuel (rest.drop (n - 1)) (pos.add_chars n) tokens issues
    | none =>
    match whitespaceLen (b :: rest) with
    | some n => lexLoop fuel (rest.drop (n - 1)) (pos.add_chars n) tokens issues
    | none =>
    match newlineLen (b :: rest) with
    | some _ => lexLoop fuel rest pos.add_line tokens issues
    | none =>
    match symbolLen (b :: rest) with
    | some n =>
        match Symbol.parse ((b :: rest).take n) with
        | some sym =>
            lexLoop fuel (rest.drop (n - 1)) (pos.add_chars n)
              (tokens ++ [(Token.Symbol sym, pos)]) issues
        | none => .panicked
    | none =>
    match identLen (b :: rest) with
    | some n =>
        lexLoop fuel (rest.drop (n - 1)) (pos.add_chars n)
          (tokens ++ [(Token.Ident ((b :: rest).take n), pos)]) issues
    | none =>
    match operatorLen (b :: rest) with
    | some n =>
        match Operator.parse ((b :: rest).take n) with
        | some op =>
            lexLoop fuel (rest.drop (n - 1)) (pos.add_chars n)
              (tokens ++ [(Token.Operator op, pos)]) issues
        | none => .panicked
    | none =>
    match constLen (b :: rest) with
    | some n =>
        lexLoop fuel (rest.drop (n - 1)) (pos.add_chars n)
          (tokens ++ [(Token.Const (parseConst ((b :: rest).take n)), pos)]) issues
    | none =>
        let issues2 := issues ++ [⟨pos, .Error, "unrecognized token"⟩]
        if isCharBoundary rest then lexLoop fuel rest (pos.add_chars 1) tokens issues2
        else .panicked

def lex (bytes : List Nat) : LexResult :=
  lexLoop bytes.length bytes SourcePos.new [] []

end Lexer

/-! ## interpreter/types.rs : the scope / type table

`Vec` stacks become lists with the head as the stack top.  The
`HashMap<BlockPos, VecMap<Symbol>>` and the `VecMap` become association
lists with unique keys; iterating a `VecMap` visits one entry per key, so
the symbol count taken in `leave_block` is the list length.  A failed
`assert!`/`unwrap` is `none`. -/

namespace Types

-- Identifiers are the dense integer handles of the identifier table.
abbrev Identifier := Nat

-- The source index of the opening brace that defines the start of a scope.
abbrev BlockPos := Nat

inductive Ty where
  | Number
  | Boolean
  | Function (id : Identifier)
  | Indeterminate
deriving DecidableEq

structure Symbol where
  scope : List BlockPos
  id : Identifier
  pos : Lexer.SourcePos
  ty : Option Ty
deriving DecidableEq

-- `Node<Identifier>`: an identifier together with its source position.
structure Node where
  item : Identifier
  pos : Lexer.SourcePos
deriving DecidableEq

abbrev VecMap := List (Identifier × Symbol)

-- Association-list lookup (the first binding of a key wins; keys are kept
-- unique by the update functions below).
def smLookup : List (BlockPos × VecMap) → BlockPos → Option VecMap
  | [], _ => none
  | (k, m) :: rest, key => if k = key then some m else smLookup rest key

-- `HashMap::entry(k).or_insert(VecMap::new())`: insert an empty map if the
-- key is absent, keep the existing map otherwise.
def smInsertIfAbsent (s : List (BlockPos × VecMap)) (key : BlockPos) : List (BlockPos × VecMap) :=
  match smLookup s key with
  | some _ => s
  | none => (key, []) :: s

-- Replace the map stored under an existing key.
def smSet : List (BlockPos × VecMap) → BlockPos → VecMap → List (BlockPos × VecMap)
  | [], _, _ => []
  | (k, m) :: rest, key, m2 => if k = key then (k, m2) :: rest else (k, m) :: smSet rest key m2

-- `VecMap::entry(id).or_insert(default)` followed by `symbol.ty = ty`: an
-- existing symbol keeps its other fields and gets the new type; an absent
-- id gets the freshly built symbol with the new type.
def vmSetTy : VecMap → Identifier → Symbol → Option Ty → VecMap
  | [], key, fresh, ty => [(key, { fresh with ty := ty })]
  | (k, s) :: rest, key, fresh, ty =>
    if k = key then (k, { s with ty := ty }) :: rest
    else (k, s) :: vmSetTy rest key fresh ty

def vmLookup : VecMap → Identifier → Option Symbol
  | [], _ => none
  | (k, s) :: rest, key => if k = key then some s else vmLookup rest key

structure TypeTable where
  symbols : List (BlockPos × VecMap)
  scope : List BlockPos
  scope_lengths : List Nat
deriving DecidableEq

def TypeTable.new : TypeTable :=
  { symbols := [(0, [])], scope := [0], scope_lengths := [0] }

-- `push_all` of a slice pushes its elements in order, so the slice's last
-- element ends up on top (the head of our list).
def TypeTable.enter_scope (t : TypeTable) (scope : List BlockPos) : TypeTable :=
  { t with scope := scope.reverse ++ t.scope,
           scope_lengths := scope.length :: t.scope_lengths }

def TypeTable.enter_block (t : TypeTable) (scope : BlockPos) : TypeTable :=
  { t with scope := scope :: t.scope,
           scope_lengths := 1 :: t.scope_lengths,
           symbols := smInsertIfAbsent t.symbols scope }

-- The body of the `for _ in 0..self.scope_lengths.pop()` loop: pop one
-- block key, then pop one further stack entry per symbol recorded in that
-- block's map (`Vec::pop` on an exhausted stack is a no-op, hence `drop`).
-- `none` models the panics (`unwrap` of an empty pop, indexing a missing
-- HashMap key).
def leaveLoop (symbols : List (BlockPos × VecMap)) : Nat → List BlockPos → Option (List BlockPos)
  | 0, scope => some scope
  | n + 1, scope =>
    match scope with
    | [] => none
    | b :: rest =>
      match smLookup symbols b with
      | none => none
      | some m => leaveLoop symbols n (rest.drop m.length)

def TypeTable.leave_block (t : TypeTable) : Option TypeTable :=
  -- assert!(self.scope_lengths.len() > 1, "tried to leave the outermost scope!")
  if t.scope_lengths.length ≤ 1 then none
  else
    match t.scope_lengths with
    | [] => none
    | n :: rest =>
      (leaveLoop t.symbols n t.scope).map
        (fun sc => { t with scope := sc, scope_lengths := rest })

-- `set_type` first enters a block keyed by the identifier's source index,
-- then writes into the block on top of the (new) scope stack.  The
-- defaults taken by `headD`/`getD` are unreachable: `enter_block` just
-- pushed the key and inserted its map.
def TypeTable.set_type (t : TypeTable) (id : Node) (ty : Option Ty) : TypeTable :=
  let t1 := t.enter_block id.pos.index
  let block_pos := t1.scope.headD 0
  let id_map := (smLookup t1.symbols block_pos).getD []
  let fresh : Symbol := { scope := t1.scope, id := id.item, pos := id.pos, ty := none }
  { t1 with symbols := smSet t1.symbols block_pos (vmSetTy id_map id.item fresh ty) }

def TypeTable.has_scope_cycle (t : TypeTable) (pos : BlockPos) : Bool :=
  t.scope.contains pos

-- A sequence of table operations, threaded through `Option` so that a
-- panicking `leave_block` aborts the run.
inductive TTOp where
  | enterBlock (k : BlockPos)
  | enterScope (s : List BlockPos)
  | setType (id : Node) (ty : Option Ty)
  | leaveBlock
deriving DecidableEq

def runOps : List TTOp → TypeTable → Option TypeTable
  | [], t => some t
  | op :: ops, t =>
    match op with
    | .enterBlock k => runOps ops (t.enter_block k)
    | .enterScope s => runOps ops (t.enter_scope s)
    | .setType id ty => runOps ops (t.set_type id ty)
    | .leaveBlock =>
      match t.leave_block with
      | some t2 => runOps ops t2
      | none => none

-- Checks that every `leave_block` in the sequence is called while more
-- than the outermost scope is open (so the sequence is properly matched in
-- the sense of the claims: no leave ever targets the outermost scope).
def leaveCallsSafe : List TTOp → TypeTable → Bool
  | [], _ => true
  | op :: ops, t =>
    match op with
    | .enterBlock k => leaveCallsSafe ops (t.enter_block k)
    | .enterScope s => leaveCallsSafe ops (t.enter_scope s)
    | .setType id ty => leaveCallsSafe ops (t.set_type id ty)
    | .leaveBlock =>
      decide (1 < t.scope_lengths.length) && decide (1 < t.scope.length) &&
        match t.leave_block with
        | some t2 => leaveCallsSafe ops t2
        | none => false

end Types

/-! ## Theorems -/

open Expr in
/-- Claim C1: compiling with the shunting-yard pass and evaluating the
resulting postfix form honors the precedence tiers and associativity:
`2 + 3 * 4` evaluates to 14, `(2 + 3) * 4` to 20 and `2 ^ 3 ^ 2` to 512
(`Exp` is right-associative, so not 64); the tiers are
{And,Or,Xor} < {Equ,NotEqu,ApproxEqu} < {Less,Greater,LessEqual,GreaterEqual}
< {Add,Sub} < {Mul,Div,Mod} < {Neg,Not,Exp}, and `Exp` is the only
right-associative operator. -/
theorem c1_precedence_associativity :
    compileEval [.Value 2, .Op .Add, .Value 3, .Op .Mul, .Value 4] emptyScope = .ok 14 ∧
    compileEval [.LParen, .Value 2, .Op .Add, .Value 3, .RParen, .Op .Mul, .Value 4] emptyScope = .ok 20 ∧
    compileEval [.Value 2, .Op .Exp, .Value 3, .Op .Exp, .Value 2] emptyScope = .ok 512 ∧
    (512 : ℚ) ≠ 64 ∧
    (∀ op : Operator, op.associativity = .Right ↔ op = .Exp) ∧
    (Operator.And.precedence = Operator.Or.precedence ∧
      Operator.Or.precedence = Operator.Xor.precedence ∧
      Operator.Equ.precedence = Operator.NotEqu.precedence ∧
      Operator.NotEqu.precedence = Operator.ApproxEqu.precedence ∧
      Operator.Less.precedence = Operator.Greater.precedence ∧
      Operator.Greater.precedence = Operator.LessEqual.precedence ∧
      Operator.LessEqual.precedence = Operator.GreaterEqual.precedence ∧
      Operator.Add.precedence = Operator.Sub.precedence ∧
      Operator.Mul.precedence = Operator.Div.precedence ∧
      Operator.Div.precedence = Operator.Mod.precedence ∧
      Operator.Neg.precedence = Operator.Not.precedence ∧
      Operator.Not.precedence = Operator.Exp.precedence) ∧
    (Operator.And.precedence < Operator.Equ.precedence ∧
      Operator.Equ.precedence < Operator.Less.precedence ∧
      Operator.Less.precedence < Operator.Add.precedence ∧
      Operator.Add.precedence < Operator.Mul.precedence ∧
      Operator.Mul.precedence < Operator.Exp.precedence) := by
  refine ⟨?_, ?_, ?_, by norm_num, ?_, by decide, by decide⟩
  · simp only [compileEval, shunting_yard, syLoop, popOps, drainStack, popUntilLParen,
      eval_rpn, evalLoop, applyOp, Operator.precedence, Operator.associativity,
      Operator.num_args, powf, fract]
    norm_num
  · simp only [compileEval, shunting_yard, syLoop, popOps, drainStack, popUntilLParen,
      eval_rpn, evalLoop, applyOp, Operator.precedence, Operator.associativity,
      Operator.num_args, powf, fract]
    norm_num
  · simp only [compileEval, shunting_yard, syLoop, popOps, drainStack, popUntilLParen,
      eval_rpn, evalLoop, applyOp, Operator.precedence, Operator.associativity,
      Operator.num_args, powf, fract]
    norm_num [Int.toNat]
  · intro op
    cases op <;> simp [Expr.Operator.associativity]

open Expr in
/-- Claim C5 counterexample: the claim says `Not v` yields the true
sentinel exactly when `v > 0` is false, but at `v = 0` the code computes
`from_bool (is_truthy (-0))`, which is the false sentinel even though
`0 > 0` is false. -/
theorem c5_counterexample :
    eval_rpn [.Value 0, .Op .Not] emptyScope = .ok FALSE ∧
    is_truthy 0 = false ∧
    FALSE ≠ TRUE := by
  refine ⟨?_, by simp [is_truthy], by norm_num [TRUE, FALSE]⟩
  simp only [eval_rpn, evalLoop, applyOp, Operator.num_args]
  norm_num [is_truthy, from_bool, TRUE, FALSE]

open Expr in
/-- Claim C5 amended: the `Not` arm computes `from_bool (is_truthy (-v))`,
so it yields the true sentinel exactly when `-v > 0`, i.e. when `v < 0`.
This agrees with logical negation of truthiness for every `v ≠ 0`, but at
`v = 0` it yields the false sentinel instead of the true one. -/
theorem c5_amended (v : ℚ) :
    eval_rpn [.Value v, .Op .Not] emptyScope = .ok (from_bool (is_truthy (-v))) ∧
    (is_truthy (-v) = true ↔ v < 0) ∧
    (v ≠ 0 → is_truthy (-v) = !is_truthy v) := by
  refine ⟨?_, ?_, ?_⟩
  · simp only [eval_rpn, evalLoop, applyOp, Operator.num_args]
    simp
  · simp [is_truthy]
  · intro hv
    by_cases h0 : 0 < v
    · have h1 : ¬ (0 < -v) := by linarith
      simp [is_truthy, h0, h1]
    · have h1 : 0 < -v := by
        rcases lt_trichotomy v 0 with h | h | h
        · linarith
        · exact absurd h hv
        · exact absurd h h0
      simp [is_truthy, h1, h0]

open Expr in
/-- Witness for `c5_amended` at `v = -3`: the hypothesis `v ≠ 0` holds and
the negation-of-truthiness equation is obtained from the theorem. -/
theorem c5_witness :
    ((-3 : ℚ) ≠ 0) ∧ is_truthy (-(-3 : ℚ)) = !is_truthy (-3 : ℚ) :=
  ⟨by norm_num, (c5_amended (-3)).2.2 (by norm_num)⟩

open Expr in
/-- Claim C9: `fold_scope` rewrites each resolved-variable entry whose id
is bound in the scope into a constant and leaves everything else alone, so
a second application with the same scope changes nothing. -/
theorem c9_fold_scope_idempotent (e : Expression) (scope : Scope) :
    (e.fold_scope scope).fold_scope scope = e.fold_scope scope := by
  cases e with
  | mk rpn pos =>
    simp only [Expression.fold_scope, List.map_map, Expression.mk.injEq, and_true]
    refine List.map_congr_left ?_
    intro t _
    show foldTok scope (foldTok scope t) = foldTok scope t
    cases t with
    | Var id =>
        cases h : scope.get_var id with
        | some v => simp [foldTok, h]
        | none => simp [foldTok, h]
    | Op op => simp [foldTok]
    | Value v => simp [foldTok]
    | LParen => simp [foldTok]
    | RParen => simp [foldTok]
    | Fn call => simp [foldTok]

namespace Expr

-- The control flow of `evalLoop` on constant/operator-only postfix lists
-- is fully determined by the stack size, which `sim` tracks.
theorem evalLoop_sim (scope : Scope) :
    ∀ (ts : List ExprToken) (stack : List ℚ), ts.all isValOp = true →
      (∀ op, sim ts stack.length = .underflow op →
        evalLoop scope ts stack =
          .error ("invalid expression: not enough args for operator " ++ op.name)) ∧
      (∀ n, sim ts stack.length = .ok n →
        ∃ st, evalLoop scope ts stack = .ok st ∧ st.length = n) := by
  intro ts
  induction ts with
  | nil =>
      intro stack _
      constructor
      · intro op h
        simp [sim] at h
      · intro n h
        simp only [sim, SimResult.ok.injEq] at h
        exact ⟨stack, by simp [evalLoop], h⟩
  | cons t ts ih =>
      intro stack hall
      simp only [List.all_cons, Bool.and_eq_true] at hall
      cases t with
      | Value v =>
          have := ih (v :: stack) hall.2
          simpa [sim, evalLoop] using this
      | Op op =>
          by_cases hlt : stack.length < op.num_args
          · constructor
            · intro op2 h
              simp only [sim, if_pos hlt] at h
              cases h
              simp [evalLoop, hlt]
            · intro n h
              simp only [sim, if_pos hlt] at h
              simp at h
          · have hrec := ih (applyOp op (stack.take op.num_args) :: stack.drop op.num_args) hall.2
            have hlen : (applyOp op (stack.take op.num_args) :: stack.drop op.num_args).length
                = stack.length - op.num_args + 1 := by
              simp [List.length_drop]
            constructor
            · intro op2 h
              simp only [sim, if_neg hlt] at h
              have := (hrec.1 op2 (by rw [hlen]; exact h))
              simpa [evalLoop, hlt] using this
            · intro n h
              simp only [sim, if_neg hlt] at h
              have := (hrec.2 n (by rw [hlen]; exact h))
              simpa [evalLoop, hlt] using this
      | Var id => simp [isValOp] at hall
      | LParen => simp [isValOp] at hall
      | RParen => simp [isValOp] at hall
      | Fn call => simp [isValOp] at hall

end Expr

open Expr in
/-- Claim C8 counterexample: the postfix sequence `[Value 1, Op Add]` has
too few operands, yet evaluating it yields the error "invalid expression:
not enough args for operator Add" — not the claimed "zero values in
expression" (nor "too many values in expression"). -/
theorem c8_counterexample :
    eval_rpn [.Value 1, .Op .Add] emptyScope =
      .error ("invalid expression: not enough args for operator Add") ∧
    .error ("invalid expression: not enough args for operator Add") ≠
      (.error "zero values in expression" : Except String ℚ) ∧
    .error ("invalid expression: not enough args for operator Add") ≠
      (.error "too many values in expression" : Except String ℚ) := by
  refine ⟨?_, by simp, by simp⟩
  simp [eval_rpn, evalLoop, Operator.num_args, Operator.name]

open Expr in
/-- Claim C8 amended: for a postfix sequence of constants and operators,
an operand count too low for some operator yields the error "invalid
expression: not enough args for operator ...", a walk ending with an empty
value stack (the empty sequence) yields "zero values in expression", and a
walk ending with two or more values yields "too many values in
expression" — in every unbalanced case an error rather than a number. -/
theorem c8_amended (ts : List ExprToken) (scope : Scope) (h : ts.all isValOp = true) :
    (∀ op, sim ts 0 = .underflow op →
      eval_rpn ts scope = .error ("invalid expression: not enough args for operator " ++ op.name)) ∧
    (sim ts 0 = .ok 0 → eval_rpn ts scope = .error "zero values in expression") ∧
    (∀ n, sim ts 0 = .ok (n + 2) → eval_rpn ts scope = .error "too many values in expression") := by
  have hsim := evalLoop_sim scope ts [] h
  refine ⟨?_, ?_, ?_⟩
  · intro op hu
    have := hsim.1 op (by simpa using hu)
    simp [eval_rpn, this]
  · intro h0
    obtain ⟨st, hst, hlen⟩ := hsim.2 0 (by simpa using h0)
    have : st = [] := List.length_eq_zero.mp hlen
    subst this
    simp [eval_rpn, hst]
  · intro n hn
    obtain ⟨st, hst, hlen⟩ := hsim.2 (n + 2) (by simpa using hn)
    match st, hlen with
    | a :: b :: rest, _ => simp [eval_rpn, hst]

open Expr in
/-- Witness for `c8_amended` at the concrete sequence `[Value 1, Op Add]`
(one operand for a binary operator). -/
theorem c8_witness :
    eval_rpn [.Value 1, .Op .Add] emptyScope =
      .error ("invalid expression: not enough args for operator " ++ Operator.name .Add) :=
  (c8_amended [.Value 1, .Op .Add] emptyScope (by decide)).1 .Add (by decide)

namespace Types

theorem smLookup_insertIfAbsent_ne (s : List (BlockPos × VecMap)) (key b : BlockPos)
    (h : b ≠ key) : smLookup (smInsertIfAbsent s key) b = smLookup s b := by
  unfold smInsertIfAbsent
  cases hk : smLookup s key with
  | some m => rfl
  | none => simp [smLookup, Ne.symm h]

theorem smLookup_insertIfAbsent_self (s : List (BlockPos × VecMap)) (key : BlockPos) :
    (smLookup (smInsertIfAbsent s key) key).isSome := by
  unfold smInsertIfAbsent
  cases hk : smLookup s key with
  | some m => simp [hk]
  | none => simp [smLookup]

theorem smLookup_smSet_ne (s : List (BlockPos × VecMap)) (key b : BlockPos) (m : VecMap)
    (h : b ≠ key) : smLookup (smSet s key m) b = smLookup s b := by
  induction s with
  | nil => rfl
  | cons p rest ih =>
      obtain ⟨k, mm⟩ := p
      by_cases hk : k = key
      · subst hk
        simp [smSet, smLookup, Ne.symm h]
      · by_cases hb : k = b
        · subst hb
          simp [smSet, smLookup, hk]
        · simp [smSet, smLookup, hk, hb, ih]

theorem smLookup_smSet_self (s : List (BlockPos × VecMap)) (key : BlockPos) (m : VecMap)
    (h : (smLookup s key).isSome) : smLookup (smSet s key m) key = some m := by
  induction s with
  | nil => simp [smLookup] at h
  | cons p rest ih =>
      obtain ⟨k, mm⟩ := p
      by_cases hk : k = key
      · subst hk
        simp [smSet, smLookup]
      · simp only [smLookup, if_neg hk] at h
        simp [smSet, smLookup, hk, ih h]

theorem vmSetTy_lookup_self (m : VecMap) (key : Identifier) (fresh : Symbol) (ty : Option Ty) :
    ∃ s, vmLookup (vmSetTy m key fresh ty) key = some s ∧ s.ty = ty := by
  induction m with
  | nil => exact ⟨{ fresh with ty := ty }, by simp [vmSetTy, vmLookup], rfl⟩
  | cons p rest ih =>
      obtain ⟨k, s0⟩ := p
      by_cases hk : k = key
      · subst hk
        exact ⟨{ s0 with ty := ty }, by simp [vmSetTy, vmLookup], rfl⟩
      · obtain ⟨s, hs, hty⟩ := ih
        exact ⟨s, by simp [vmSetTy, vmLookup, hk, hs], hty⟩

end Types

open Types in
/-- Claim C2 counterexample: from the fresh table (whose active scope
stack is `[0]`), `enter_block 1`, two `set_type` calls recording symbols
(at source indices 2 and 3), then `leave_block` leaves the scope stack at
`[1, 0]`, not the pre-`enter_block` value `[0]` — `leave_block` pops one
extra level per symbol in the popped block's map, so the push/pop pair
does not restore the stack when symbols were added in between. -/
theorem c2_counterexample :
    TypeTable.new.scope = [0] ∧
    (runOps [.enterBlock 1,
             .setType ⟨10, ⟨1, 3, 2, 0⟩⟩ (some .Number),
             .setType ⟨11, ⟨1, 4, 3, 0⟩⟩ (some .Number),
             .leaveBlock] TypeTable.new).map TypeTable.scope = some [1, 0] ∧
    (some [1, 0] : Option (List Nat)) ≠ some [0] := by
  decide

open Types in
/-- Claim C2 amended: `enter_block k` immediately followed by
`leave_block` restores the active scope stack and the depth stack exactly
when the symbol map recorded for `k` is empty at that point (in
particular, for a block key never written to); each symbol already in
block `k`'s map makes `leave_block` pop one additional level, so the
restoration does not hold regardless of intervening `set_type` calls. -/
theorem c2_amended (t : TypeTable) (k : BlockPos)
    (h1 : t.scope_lengths ≠ [])
    (h2 : smLookup (t.enter_block k).symbols k = some []) :
    (t.enter_block k).leave_block =
      some { symbols := (t.enter_block k).symbols,
             scope := t.scope, scope_lengths := t.scope_lengths } := by
  have hnotle : ¬ ((1 :: t.scope_lengths).length ≤ 1) := by
    have hp := List.length_pos.mpr h1
    simp only [List.length_cons]
    omega
  simp only [TypeTable.enter_block] at h2
  simp only [TypeTable.leave_block, TypeTable.enter_block, if_neg hnotle, leaveLoop, h2,
    List.length_nil, List.drop_zero]
  rfl

open Types in
/-- Witness for `c2_amended`: the fresh table and the untouched block key
1 satisfy both hypotheses, and the push/pop pair restores both stacks. -/
theorem c2_witness :
    (TypeTable.new.enter_block 1).leave_block =
      some { symbols := (TypeTable.new.enter_block 1).symbols,
             scope := TypeTable.new.scope,
             scope_lengths := TypeTable.new.scope_lengths } :=
  c2_amended TypeTable.new 1 (by decide) (by decide)

open Types in
/-- Claim C3 counterexample: with two open blocks (scope stack `[1, 0]`),
`set_type` of identifier 10 whose source index is 2 does not record the
symbol in the innermost open block 1 (block 1's map stays empty) and does
not leave the scope stack unchanged: it pushes a new block keyed by the
identifier's own source index and writes the symbol there, so the stack
becomes `[2, 1, 0]`. -/
theorem c3_counterexample :
    (TypeTable.new.enter_block 1).scope = [1, 0] ∧
    ((TypeTable.new.enter_block 1).set_type ⟨10, ⟨1, 3, 2, 0⟩⟩ (some .Number)).scope = [2, 1, 0] ∧
    ([2, 1, 0] : List Nat) ≠ [1, 0] ∧
    smLookup ((TypeTable.new.enter_block 1).set_type ⟨10, ⟨1, 3, 2, 0⟩⟩ (some .Number)).symbols 1 =
      some [] ∧
    smLookup ((TypeTable.new.enter_block 1).set_type ⟨10, ⟨1, 3, 2, 0⟩⟩ (some .Number)).symbols 2 =
      some [(10, ⟨[2, 1, 0], 10, ⟨1, 3, 2, 0⟩, some .Number⟩)] := by
  decide

open Types in
/-- Claim C3 amended: `set_type id ty` first enters a fresh level keyed by
`id`'s source index (so the scope stack grows by exactly that one level,
it is not left unchanged) and records the symbol with type `ty` in that
block — the innermost block after the push; every other block's map,
including the block that was innermost at the moment of the call, is left
unchanged (outer same-named symbols are shadowed, not overwritten). -/
theorem c3_amended (t : TypeTable) (id : Node) (ty : Option Ty) :
    (t.set_type id ty).scope = id.pos.index :: t.scope ∧
    (t.set_type id ty).scope_lengths = 1 :: t.scope_lengths ∧
    (∀ b, b ≠ id.pos.index → smLookup (t.set_type id ty).symbols b = smLookup t.symbols b) ∧
    (∃ s, (smLookup (t.set_type id ty).symbols id.pos.index).bind (fun m => vmLookup m id.item) =
        some s ∧ s.ty = ty) := by
  refine ⟨rfl, rfl, ?_, ?_⟩
  · intro b hb
    simp only [TypeTable.set_type, TypeTable.enter_block, List.headD_cons]
    rw [smLookup_smSet_ne _ _ _ _ hb, smLookup_insertIfAbsent_ne _ _ _ hb]
  · simp only [TypeTable.set_type, TypeTable.enter_block, List.headD_cons]
    have hsome := smLookup_insertIfAbsent_self t.symbols id.pos.index
    obtain ⟨s, hs, hty⟩ := vmSetTy_lookup_self
      ((smLookup (smInsertIfAbsent t.symbols id.pos.index) id.pos.index).getD [])
      id.item
      { scope := id.pos.index :: t.scope, id := id.item, pos := id.pos, ty := none } ty
    refine ⟨s, ?_, hty⟩
    rw [smLookup_smSet_self _ _ _ hsome]
    simpa using hs

open Types in
/-- Witness for `c3_amended` at the fresh table, identifier 10 with source
index 2, type `Number`, and the distinct block key 5. -/
theorem c3_witness :
    (TypeTable.new.set_type ⟨10, ⟨1, 3, 2, 0⟩⟩ (some .Number)).scope = 2 :: TypeTable.new.scope ∧
    smLookup (TypeTable.new.set_type ⟨10, ⟨1, 3, 2, 0⟩⟩ (some .Number)).symbols 5 =
      smLookup TypeTable.new.symbols 5 ∧
    (∃ s, (smLookup (TypeTable.new.set_type ⟨10, ⟨1, 3, 2, 0⟩⟩ (some .Number)).symbols 2).bind
        (fun m => vmLookup m 10) = some s ∧ s.ty = some .Number) :=
  ⟨(c3_amended TypeTable.new ⟨10, ⟨1, 3, 2, 0⟩⟩ (some .Number)).1,
   (c3_amended TypeTable.new ⟨10, ⟨1, 3, 2, 0⟩⟩ (some .Number)).2.2.1 5 (by decide),
   (c3_amended TypeTable.new ⟨10, ⟨1, 3, 2, 0⟩⟩ (some .Number)).2.2.2⟩

open Types in
/-- Claim C7 is violated by the code: starting from the fresh table
(outermost block 0 at the bottom of the stack), the sequence
enter_block 1; set_type (identifier 10 at source index 1, Number);
leave_block; enter_block 1; leave_block — in which every `leave_block` is
called with more than the outermost scope open (`leaveCallsSafe`) — ends
with an empty active scope stack: the outermost block has been removed,
silently. -/
theorem c7_outermost_block_removed :
    TypeTable.new.scope = [0] ∧
    leaveCallsSafe
      [.enterBlock 1, .setType ⟨10, ⟨1, 2, 1, 0⟩⟩ (some .Number), .leaveBlock,
       .enterBlock 1, .leaveBlock] TypeTable.new = true ∧
    (runOps
      [.enterBlock 1, .setType ⟨10, ⟨1, 2, 1, 0⟩⟩ (some .Number), .leaveBlock,
       .enterBlock 1, .leaveBlock] TypeTable.new).map TypeTable.scope = some [] := by
  decide

namespace Lexer

-- The fuel of `lexLoop` never runs out when it is at least the length of
-- the remaining input: every iteration consumes at least one byte.
theorem lexLoop_no_fuel :
    ∀ (fuel : Nat) (walk : List Nat) (pos : SourcePos) (toks : List (Token × SourcePos))
      (iss : List Issue), walk.length ≤ fuel →
      lexLoop fuel walk pos toks iss ≠ .outOfFuel := by
  intro fuel
  induction fuel with
  | zero =>
      intro walk pos toks iss h
      have : walk = [] := List.eq_nil_of_length_eq_zero (Nat.le_zero.mp h)
      subst this
      simp [lexLoop]
  | succ fuel ih =>
      intro walk pos toks iss h
      cases walk with
      | nil => simp [lexLoop]
      | cons b rest =>
          have hr : rest.length ≤ fuel := by
            simp only [List.length_cons] at h
            omega
          have hd : ∀ n : Nat, (rest.drop n).length ≤ fuel := by
            intro n
            have := List.length_drop n rest
            omega
          simp only [lexLoop]
          split
          · exact ih _ _ _ _ (hd _)
          · split
            · exact ih _ _ _ _ (hd _)
            · split
              · exact ih _ _ _ _ hr
              · split
                · split
                  · exact ih _ _ _ _ (hd _)
                  · simp
                · split
                  · exact ih _ _ _ _ (hd _)
                  · split
                    · split
                      · exact ih _ _ _ _ (hd _)
                      · simp
                    · split
                      · exact ih _ _ _ _ (hd _)
                      · split
                        · exact ih _ _ _ _ hr
                        · simp

-- `lex` itself can therefore only end in `done` or `panicked`.
theorem lex_no_fuel (bytes : List Nat) : lex bytes ≠ .outOfFuel :=
  lexLoop_no_fuel bytes.length bytes SourcePos.new [] [] (Nat.le_refl _)

end Lexer

open Lexer in
/-- Claim C4 evaluated at its failing input: on the two-byte UTF-8
character 0xC3 0xA9 (`é`), no token pattern matches, and the
unrecognized-byte branch slices one byte into the middle of the character,
which panics in Rust (modelled by `panicked`) instead of logging and
continuing.  On an unrecognized ASCII byte (`@` followed by `+`) the lexer
does log the Error "unrecognized token" at the current position, skip one
byte and continue, as the claim describes. -/
theorem c4_lex_panics_on_nonascii :
    lex [195, 169] = .panicked ∧
    lex [64, 43] = .done [(.Operator .Add, ⟨1, 2, 1, 0⟩)]
      [⟨⟨1, 1, 0, 0⟩, .Error, "unrecognized token"⟩] := by
  decide

open Lexer in
/-- Claim C6 counterexample: `.5` does not lex as a single constant 0.5 —
the leading `.` is claimed by the higher-priority symbol pattern, giving
`Period` then `Const 5`; and `1e+5` does not lex as a single constant
100000 — the exponent pattern admits only a minus sign, so it gives
`Const 1`, the identifier `e`, the operator `+` and `Const 5`. -/
theorem c6_counterexample :
    lex [46, 53] = .done
      [(.Symbol .Period, ⟨1, 1, 0, 0⟩), (.Const 5, ⟨1, 2, 1, 0⟩)] [] ∧
    lex [49, 101, 43, 53] = .done
      [(.Const 1, ⟨1, 1, 0, 0⟩), (.Ident [101], ⟨1, 2, 1, 0⟩),
       (.Operator .Add, ⟨1, 3, 2, 0⟩), (.Const 5, ⟨1, 4, 3, 0⟩)] [] := by
  decide

set_option maxHeartbeats 1600000 in
open Lexer in
/-- Claim C6 amended: a numeric lexeme that starts with a digit and whose
exponent, if present, carries at most a minus sign is lexed as a single
NumericConstant with the corresponding value — `0.5` as one constant 1/2,
`1e5` as one constant 100000, `12.5e-1` as one constant 5/4; but `.5`
lexes as the symbol `.` followed by the constant 5 (symbols are matched
before constants), and `1e+5` lexes as the constant 1, the identifier
`e`, the operator `+` and the constant 5 (no plus sign in the exponent
pattern). -/
theorem c6_amended :
    lex [48, 46, 53] = .done [(.Const (1/2), ⟨1, 1, 0, 0⟩)] [] ∧
    lex [49, 101, 53] = .done [(.Const 100000, ⟨1, 1, 0, 0⟩)] [] ∧
    lex [49, 50, 46, 53, 101, 45, 49] = .done [(.Const (5/4), ⟨1, 1, 0, 0⟩)] [] ∧
    lex [46, 53] = .done
      [(.Symbol .Period, ⟨1, 1, 0, 0⟩), (.Const 5, ⟨1, 2, 1, 0⟩)] [] ∧
    lex [49, 101, 43, 53] = .done
      [(.Const 1, ⟨1, 1, 0, 0⟩), (.Ident [101], ⟨1, 2, 1, 0⟩),
       (.Operator .Add, ⟨1, 3, 2, 0⟩), (.Const 5, ⟨1, 4, 3, 0⟩)] [] := by
  refine ⟨?_, ?_, ?_, by decide, by decide⟩
  · simp [lex, lexLoop, commentLen, whitespaceLen, newlineLen, symbolLen, identLen,
      operatorLen, constLen, mantissaLen, expLen, expTail, isDigit, isAlpha, identStart,
      identCont, symClass, opClass, parseConst, applyExp, digitsToNat, SourcePos.new,
      SourcePos.add_chars, List.takeWhile, List.take, List.drop]
    norm_num
  · simp [lex, lexLoop, commentLen, whitespaceLen, newlineLen, symbolLen, identLen,
      operatorLen, constLen, mantissaLen, expLen, expTail, isDigit, isAlpha, identStart,
      identCont, symClass, opClass, parseConst, applyExp, digitsToNat, SourcePos.new,
      SourcePos.add_chars, List.takeWhile, List.take, List.drop]
    norm_num
  · simp [lex, lexLoop, commentLen, whitespaceLen, newlineLen, symbolLen, identLen,
      operatorLen, constLen, mantissaLen, expLen, expTail, isDigit, isAlpha, identStart,
      identCont, symClass, opClass, parseConst, applyExp, digitsToNat, SourcePos.new,
      SourcePos.add_chars, List.takeWhile, List.take, List.drop]
    norm_num

open Lexer in
/-- Claim C10 counterexample: the identifier-shaped lexeme `if1` is not
lexed as a keyword symbol followed by an Identifier token — the remainder
after the `if` prefix starts with a digit, so it becomes the
NumericConstant 1, not an Identifier. -/
theorem c10_counterexample :
    lex [105, 102, 49] = .done
      [(.Symbol .If, ⟨1, 1, 0, 0⟩), (.Const 1, ⟨1, 3, 2, 0⟩)] [] := by
  decide

open Lexer in
/-- Claim C10 amended: whenever the remaining input begins with `if` (or
`else`), the lexer unconditionally emits the keyword Symbol token for that
prefix and continues after it — so an identifier-shaped lexeme starting
with a keyword is never lexed as a single Identifier token.  The remainder
is then lexed on its own: as an Identifier when it starts with an
identifier-start character (`iffy` gives `If` then the identifier `fy`,
`elsewhere` gives `Else` then the identifier `where`), but, for example,
as a NumericConstant when it starts with a digit (`if1` gives `If` then
the constant 1). -/
theorem c10_amended :
    (∀ (fuel : Nat) (r : List Nat) (pos : SourcePos) (toks : List (Token × SourcePos))
       (iss : List Issue),
      lexLoop (fuel + 1) (105 :: 102 :: r) pos toks iss =
        lexLoop fuel r (pos.add_chars 2) (toks ++ [(.Symbol .If, pos)]) iss) ∧
    (∀ (fuel : Nat) (r : List Nat) (pos : SourcePos) (toks : List (Token × SourcePos))
       (iss : List Issue),
      lexLoop (fuel + 1) (101 :: 108 :: 115 :: 101 :: r) pos toks iss =
        lexLoop fuel r (pos.add_chars 4) (toks ++ [(.Symbol .Else, pos)]) iss) ∧
    lex [105, 102, 102, 121] = .done
      [(.Symbol .If, ⟨1, 1, 0, 0⟩), (.Ident [102, 121], ⟨1, 3, 2, 0⟩)] [] ∧
    lex [101, 108, 115, 101, 119, 104, 101, 114, 101] = .done
      [(.Symbol .Else, ⟨1, 1, 0, 0⟩), (.Ident [119, 104, 101, 114, 101], ⟨1, 5, 4, 0⟩)] [] ∧
    lex [105, 102, 49] = .done
      [(.Symbol .If, ⟨1, 1, 0, 0⟩), (.Const 1, ⟨1, 3, 2, 0⟩)] [] :=
  ⟨fun _ _ _ _ _ => rfl, fun _ _ _ _ _ => rfl, by decide, by decide, by decide⟩

end Synthizer
